import Mathlib

/-!
Verification of the nova REST reverse proxy (discordnova/nova).

Shallow embedding of:
- `src/exes/rest/src/handler.rs` (`normalize_path`, `handle_request`)
- `src/exes/rest/src/ratelimit_client/mod.rs` (`RemoteRatelimiter`:
  discovery loop, `ticket`, `submit_headers`)

Paths and header names are modelled as `List Char` / `String`; Rust operates
on UTF-8 bytes, which coincides with the character-level model on ASCII data
(URI paths and header names handled by the proxy are ASCII).  Header values
of upstream responses are modelled as byte lists (`List Nat`), since the
relevant operations (`HeaderValue::to_str`) are byte-level.
-/

namespace Nova

/-! ## Character-level string utilities mirroring the Rust std operations -/

/-- Rust `str::split(sep)` on character lists: `"".split(c)` yields one empty
field, and every separator occurrence starts a new field. -/
def splitOnChar (sep : Char) : List Char → List (List Char)
  | [] => [[]]
  | x :: xs =>
    let r := splitOnChar sep xs
    if x = sep then [] :: r
    else
      match r with
      | s :: ss => (x :: s) :: ss
      | [] => [[x]]

/-- Rust `str::strip_prefix(pre)`: `some` of the remainder when `pre` leads. -/
def stripPrefixL : List Char → List Char → Option (List Char)
  | [], p => some p
  | _ :: _, [] => none
  | a :: pre, b :: p => if a = b then stripPrefixL pre p else none

/-- Rust `u8::from_str` (`"...".parse::<u8>()`): an optional leading `'+'`,
then one or more ASCII digits, with the value fitting in eight bits. -/
def parseU8 (s : List Char) : Option Nat :=
  let digits := match s with
    | c :: rest => if c = '+' then rest else s
    | [] => s
  if digits.isEmpty then none
  else if digits.all (fun c => c.isDigit) then
    let v := digits.foldl (fun acc c => acc * 10 + (c.toNat - 48)) 0
    if v ≤ 255 then some v else none
  else none

/-- The character list of the literal `"/api"`. -/
def apiL : List Char := ['/', 'a', 'p', 'i']

/-! ## `normalize_path` (src/exes/rest/src/handler.rs lines 22-37) -/

/-- Translation of `normalize_path`: strip a leading `"/api"`; take field 1 of
the remainder split on `'/'`; if it strips a leading `'v'` whose rest parses
as a `u8`, slice the original path at `"/api/v".len() + version.len()`;
otherwise return `("/api", remainder)`. -/
def normalize_path (p : List Char) : List Char × List Char :=
  match stripPrefixL apiL p with
  | some trimmed =>
    match (splitOnChar '/' trimmed).get? 1 with
    | some seg =>
      match seg with
      | [] => (apiL, trimmed)
      | c :: vs =>
        if c = 'v' then
          match parseU8 vs with
          | some _ => (p.take (6 + vs.length), p.drop (6 + vs.length))
          | none => (apiL, trimmed)
        else (apiL, trimmed)
    | none => (apiL, trimmed)
  | none => (apiL, p)

/-- `s` is a version segment in the sense of the reference contract
of the specification: `'v'` followed by one or more decimal digits. -/
def isVersionSeg (s : List Char) : Bool :=
  match s with
  | c :: ds => c = 'v' && !ds.isEmpty && ds.all (fun d => d.isDigit)
  | [] => false

/-- The reference contract for `normalize_path` as the specification words it:
paths without the `/api` lead are returned unchanged under an `"/api"`
prefix; when the remainder begins with a `/v<digits>` segment, that segment
is stripped as part of the prefix; otherwise only `/api` is stripped. -/
def normalize_path_contract (p : List Char) : List Char × List Char :=
  if apiL.isPrefixOf p then
    let t := p.drop 4
    match splitOnChar '/' t with
    | [] :: s :: _ =>
      if isVersionSeg s then (p.take (5 + s.length), p.drop (5 + s.length))
      else (apiL, t)
    | _ => (apiL, t)
  else (apiL, p)

/-- The amended reference contract: the version segment is accepted exactly
when the second `'/'`-separated field of the remainder is `'v'` followed by
characters that parse as a Rust `u8` (optional `'+'` sign, decimal value at
most 255), and the split point is `6 +` the length of those characters into
the original input. -/
def normalize_path_amended (p : List Char) : List Char × List Char :=
  if apiL.isPrefixOf p then
    let t := p.drop 4
    match splitOnChar '/' t with
    | _ :: s :: _ =>
      match s with
      | c :: vs =>
        if c = 'v' ∧ (parseU8 vs).isSome then
          (p.take (6 + vs.length), p.drop (6 + vs.length))
        else (apiL, t)
      | [] => (apiL, t)
    | _ => (apiL, t)
  else (apiL, p)

theorem stripPrefixL_eq_some {pre : List Char} :
    ∀ {p t : List Char}, stripPrefixL pre p = some t → p = pre ++ t := by
  induction pre with
  | nil => intro p t h; simpa [stripPrefixL] using h
  | cons a pre ih =>
    intro p t h
    cases p with
    | nil => simp [stripPrefixL] at h
    | cons b bs =>
      by_cases hab : a = b
      · simp only [stripPrefixL, if_pos hab] at h
        subst hab
        simpa using ih h
      · simp [stripPrefixL, hab] at h

theorem stripPrefixL_isSome (pre : List Char) :
    ∀ p : List Char, (stripPrefixL pre p).isSome = pre.isPrefixOf p := by
  induction pre with
  | nil => intro p; simp [stripPrefixL, List.isPrefixOf]
  | cons a pre ih =>
    intro p
    cases p with
    | nil => simp [stripPrefixL, List.isPrefixOf]
    | cons b bs =>
      by_cases hab : a = b
      · simp [stripPrefixL, List.isPrefixOf, hab, ih]
      · simp [stripPrefixL, List.isPrefixOf, hab]

theorem drop_four_apiL_append (t : List Char) : (apiL ++ t).drop 4 = t := rfl

/-- C3 (amended): `normalize_path` agrees with the amended reference
contract on every input path — the version segment is stripped exactly when
the second `'/'`-separated field of the remainder after `"/api"` is `'v'`
followed by characters that parse as a Rust `u8`. -/
theorem normalize_path_eq_amended (p : List Char) :
    normalize_path p = normalize_path_amended p := by
  unfold normalize_path normalize_path_amended
  cases h : stripPrefixL apiL p with
  | none =>
    have hpre : apiL.isPrefixOf p = false := by
      have := stripPrefixL_isSome apiL p
      rw [h] at this
      simpa using this.symm
    simp [hpre]
  | some t =>
    obtain rfl : p = apiL ++ t := stripPrefixL_eq_some h
    have hpre : apiL.isPrefixOf (apiL ++ t) = true := by simp
    rw [if_pos hpre]
    simp only [drop_four_apiL_append]
    cases hs : splitOnChar '/' t with
    | nil => simp
    | cons f0 tl =>
      cases tl with
      | nil => simp
      | cons f1 tl2 =>
        cases f1 with
        | nil => simp [List.get?]
        | cons c vs =>
          by_cases hc : c = 'v'
          · cases hp : parseU8 vs with
            | none => simp [List.get?, hc, hp]
            | some n => simp [List.get?, hc, hp]
          · simp [List.get?, hc]

/-- C3 counterexample input: a version segment whose digits do not fit in a
`u8`, so `parse::<u8>()` fails and the code keeps the bare `"/api"` prefix
while the reference contract strips `"/api/v300"`. -/
theorem normalize_path_not_contract :
    normalize_path ("/api/v300/foo".toList) = ("/api".toList, "/v300/foo".toList) ∧
    normalize_path_contract ("/api/v300/foo".toList) = ("/api/v300".toList, "/foo".toList) ∧
    normalize_path ("/api/v300/foo".toList) ≠ normalize_path_contract ("/api/v300/foo".toList) := by
  decide

/-! ## Node Discovery Loop (src/exes/rest/src/ratelimit_client/mod.rs 66-88)

The background task spawned by `RemoteRatelimiter::new` runs
`loop { get_ratelimiters; select! { sleep => {}, stop.recv() => {} } }`.
One resolution iteration happens at the top of each loop pass; the pass then
blocks on the `select!`, which completes either because the 10-second sleep
elapsed or because the shutdown broadcast channel delivered.  Both select
arms have empty bodies and the loop body contains no `break` or `return`,
which the step function below records. -/

/-- Which arm of the `select!` completed for one loop pass. -/
inductive SelectBranch
  | timerElapsed
  | stopReceived
deriving DecidableEq, Repr

/-- Whether completing this select arm makes the loop exit.  Translated from
the source: the body of the `sleep` arm is only a log call and the body of the
receive arm is empty; neither contains a break, so no branch exits the loop. -/
def selectArmExits (_b : SelectBranch) : Bool := false

/-- Number of loop passes so far, and whether the loop has terminated. -/
structure LoopRun where
  resolutions : Nat
  exited : Bool
deriving DecidableEq, Repr

/-- Run the discovery loop against a finite schedule of select outcomes: one
resolution at the top of each pass, then the next scheduled select outcome
(an empty schedule leaves the loop blocked inside `select!`). -/
def runDiscovery : List SelectBranch → LoopRun
  | [] => ⟨1, false⟩
  | b :: rest =>
    if selectArmExits b then ⟨1, true⟩
    else
      let r := runDiscovery rest
      ⟨r.resolutions + 1, r.exited⟩

/-- C2: after the shutdown signal is received, the loop performs a further
resolution iteration on the next timer tick and never reaches an exited
state: the `stop` arm of the `select!` does not break the loop. -/
theorem discovery_loop_ignores_stop :
    runDiscovery [SelectBranch.stopReceived, SelectBranch.timerElapsed] =
      ⟨3, false⟩ := by
  decide

/-! ## Remote rate-limiter client (src/exes/rest/src/ratelimit_client/mod.rs)

The consistent hash ring lives in `remote_hashring.rs`, which is not among
the provided sources; it is modelled from the specification (§4.3). -/

/-- One rate-limiting-service replica: address and port (the RPC channel
itself is abstracted away; RPC outcomes are oracle parameters below). -/
structure VNodeM where
  host : String
  port : Nat
deriving DecidableEq, Repr

/-- Modelled from the spec: position hashing for ring lookups
(`remote_hashring.rs` is not under src/).  Any fixed deterministic string
hash realises §4.3; a 64-bit polynomial hash is used here. -/
def strHash (s : String) : Nat :=
  s.toList.foldl (fun acc c => (acc * 31 + c.toNat) % (2 ^ 64)) 7

/-- Modelled from the spec: the Hash Ring of §4.3 — an ordered mapping from
ring positions to nodes (`remote_hashring.rs` is not under src/). -/
structure HashRingM where
  entries : List (Nat × VNodeM)
deriving Repr

/-- The entry with the smallest position among `e :: es`. -/
def minEntry (e : Nat × VNodeM) (es : List (Nat × VNodeM)) : Nat × VNodeM :=
  es.foldl (fun a b => if b.1 < a.1 then b else a) e

/-- Modelled from the spec: §4.3 `get(key)` — the node owning the smallest
ring position at or above the hashed position of the key, wrapping around to the
smallest position, and `none` on an empty ring. -/
def HashRingM.get (r : HashRingM) (key : String) : Option VNodeM :=
  match r.entries with
  | [] => none
  | e :: es =>
    let h := strHash key
    match (e :: es).filter (fun en => h ≤ en.1) with
    | [] => some (minEntry e es).2
    | c :: cs => some (minEntry c cs).2

/-- The empty ring (initial `HashRingWrapper::default()`). -/
def emptyRing : HashRingM := ⟨[]⟩

/-- The error produced by `ticket` and `submit_headers` when the ring lookup
yields no owner (mod.rs lines 108-112 and 146-148). -/
def noNodesMsg : String :=
  "did not compute ratelimit because no ratelimiter nodes are detected"

/-- Payload of the ticket-submission RPC (`BucketSubmitTicketRequest`). -/
structure BucketSubmitTicketRequest where
  path : String
deriving DecidableEq, Repr

/-- Payload of the header-report RPC (`HeadersSubmitRequest`). -/
structure HeadersSubmitRequest where
  path : String
  precise_time : Nat
  headers : List (String × String)
deriving DecidableEq, Repr

/-- `RemoteRatelimiter::ticket` (mod.rs lines 94-131): look up the owning
node for the bucket key; an empty lookup is the `noNodesMsg` error; otherwise
issue the ticket RPC (outcome supplied by the `rpc` oracle) and propagate its
result. -/
def ticket (ring : HashRingM) (path : String)
    (rpc : VNodeM → BucketSubmitTicketRequest → Except String Unit) :
    Except String Unit :=
  match ring.get path with
  | none => .error noNodesMsg
  | some node => rpc node ⟨path⟩

/-- `RemoteRatelimiter::submit_headers` (mod.rs lines 133-168): the same
lookup, then the header-report RPC carrying a capture timestamp in
milliseconds. -/
def submit_headers (ring : HashRingM) (path : String)
    (headers : List (String × String)) (nowMs : Nat)
    (rpc : VNodeM → HeadersSubmitRequest → Except String Unit) :
    Except String Unit :=
  match ring.get path with
  | none => .error noNodesMsg
  | some node => rpc node ⟨path, nowMs, headers⟩

/-- C6: on the empty ring, the lookup yields no owner, and both `ticket` and
`submit_headers` return the "no ratelimiter nodes" error for every bucket
key, without consulting the RPC oracles (no crash, no default node, no
key-specific error). -/
theorem empty_ring_no_nodes :
    ∀ (key : String) (headers : List (String × String)) (nowMs : Nat)
      (rpc₁ : VNodeM → BucketSubmitTicketRequest → Except String Unit)
      (rpc₂ : VNodeM → HeadersSubmitRequest → Except String Unit),
      emptyRing.get key = none ∧
      ticket emptyRing key rpc₁ = .error noNodesMsg ∧
      submit_headers emptyRing key headers nowMs rpc₂ = .error noNodesMsg := by
  intro key headers nowMs rpc₁ rpc₂
  exact ⟨rfl, rfl, rfl⟩

/-! ## Header values and bytes

Upstream response header values are byte sequences.  `http::HeaderValue`
construction (`from_str`/`from_bytes`) accepts bytes in `32..=255` except
DEL, plus TAB; reading one back as a string (`to_str`) requires every byte
to be visible ASCII (`32..=126`) or TAB. -/

/-- A byte sequence, each entry below 256. -/
abbrev Bytes := List Nat

/-- The `http` crate check for valid header bytes for header-value construction, at the character
level (a character above U+00FF encodes to bytes ≥ 128, all accepted). -/
def headerValueOkChar (c : Char) : Bool :=
  c = '\t' || (32 ≤ c.toNat && c.toNat ≠ 127)

/-- The `http` crate visible-ASCII check used by `HeaderValue::to_str`. -/
def visibleAsciiByte (b : Nat) : Bool :=
  (32 ≤ b && b < 127) || b = 9

/-- ASCII bytes of a string (used only on ASCII data: header names, decimal
numerals, and the concrete inputs below). -/
def strBytes (s : String) : Bytes := s.toList.map Char.toNat

/-- Decode a byte list as characters (meaningful only when every byte is
ASCII, which `to_str` guarantees before decoding). -/
def bytesToStr (bs : Bytes) : String := String.mk (bs.map Char.ofNat)

/-- `HeaderValue::to_str`: succeeds exactly when every byte is visible
ASCII.  The handler calls `.unwrap()` on this result. -/
def to_str (bs : Bytes) : Option String :=
  if bs.all visibleAsciiByte then some (bytesToStr bs) else none

/-- A UTF-8 continuation byte. -/
def utf8Cont (b : Nat) : Bool := 128 ≤ b && b < 192

/-- Decode one UTF-8 code point (RFC 3629: no overlong forms, no surrogates,
no code points above U+10FFFF), returning the remaining bytes. -/
def utf8Dec : Bytes → Option Bytes
  | [] => none
  | b :: rest =>
    if b < 128 then some rest
    else if 194 ≤ b && b ≤ 223 then
      match rest with
      | c :: r => if utf8Cont c then some r else none
      | [] => none
    else if b = 224 then
      match rest with
      | c :: d :: r => if (160 ≤ c && c < 192) && utf8Cont d then some r else none
      | _ => none
    else if 225 ≤ b && b ≤ 236 then
      match rest with
      | c :: d :: r => if utf8Cont c && utf8Cont d then some r else none
      | _ => none
    else if b = 237 then
      match rest with
      | c :: d :: r => if (128 ≤ c && c < 160) && utf8Cont d then some r else none
      | _ => none
    else if 238 ≤ b && b ≤ 239 then
      match rest with
      | c :: d :: r => if utf8Cont c && utf8Cont d then some r else none
      | _ => none
    else if b = 240 then
      match rest with
      | c :: d :: e :: r =>
        if (144 ≤ c && c < 192) && utf8Cont d && utf8Cont e then some r else none
      | _ => none
    else if 241 ≤ b && b ≤ 243 then
      match rest with
      | c :: d :: e :: r =>
        if utf8Cont c && utf8Cont d && utf8Cont e then some r else none
      | _ => none
    else if b = 244 then
      match rest with
      | c :: d :: e :: r =>
        if (128 ≤ c && c < 144) && utf8Cont d && utf8Cont e then some r else none
      | _ => none
    else none

/-- Iterated decoding, fuelled by the byte count (each decode step consumes
at least one byte, so byte-count fuel never runs out on valid input). -/
def utf8ValidAux : Nat → Bytes → Bool
  | _, [] => true
  | 0, _ :: _ => false
  | fuel + 1, b :: rest =>
    match utf8Dec (b :: rest) with
    | some r => utf8ValidAux fuel r
    | none => false

/-- UTF-8 validity of a byte sequence. -/
def utf8Valid (bs : Bytes) : Bool := utf8ValidAux bs.length bs

/-! ## Header maps

`http::HeaderMap` with names normalised to lowercase (as the `http` crate
stores them; lookups are case-insensitive).  Request headers carry string
values; response headers carry byte values.  `insert` replaces all values of
a name with one, `remove` drops all values of a name, `append` adds a value
keeping existing ones. -/

abbrev Headers := List (String × String)
abbrev RespHeaders := List (String × Bytes)

def removeH (k : String) (hs : Headers) : Headers :=
  hs.filter (fun kv => kv.1 ≠ k)

def insertH (k v : String) (hs : Headers) : Headers :=
  removeH k hs ++ [(k, v)]

def appendH (k v : String) (hs : Headers) : Headers :=
  hs ++ [(k, v)]

/-- All values carried under name `k`. -/
def selKey (k : String) (hs : Headers) : Headers :=
  hs.filter (fun kv => kv.1 = k)

/-- The header rewrite of `handle_request` (handler.rs lines 93-113), in
source order: insert `Authorization: <token>` (all caller values replaced),
insert `Host: discord.com`, remove `connection`, `keep-alive`,
`proxy-connection`, `transfer-encoding`, `upgrade` and `authorization`, then
append `Authorization: Bot <token>`. -/
def rewriteHeaders (token : String) (hs : Headers) : Headers :=
  appendH "authorization" ("Bot " ++ token)
    (removeH "authorization"
      (removeH "upgrade"
        (removeH "transfer-encoding"
          (removeH "proxy-connection"
            (removeH "keep-alive"
              (removeH "connection"
                (insertH "host" "discord.com"
                  (insertH "authorization" token hs))))))))

/-! ## Bucket key derivation

`handle_request` maps the HTTP method to `twilight_http_ratelimiting::Method`,
parses the trimmed path with `Path::try_from((method, path))` and hashes the
result with `DefaultHasher`.  The `Path` classifier and the hasher are
dependency code not under src/, so they are modelled from the spec. -/

/-- Inbound HTTP method; `other` stands for every method outside the five the
proxy supports. -/
inductive HMethod
  | delete
  | get
  | patch
  | post
  | put
  | other
deriving DecidableEq, Repr

/-- `twilight_http_ratelimiting::Method`, the target of the match in the handler
(handler.rs lines 46-56); `none` models the `bail!("unsupported method")`
arm. -/
def rustMethod : HMethod → Option HMethod
  | .other => none
  | m => some m

/-- A path segment consisting of one or more decimal digits. -/
def isNumSeg (s : List Char) : Bool :=
  !s.isEmpty && s.all (fun c => c.isDigit)

/-- Modelled from the spec: abstraction of one minor numeric route parameter
(§3, §4.1) — an all-digit segment is replaced by a placeholder.  Applied by
`abstractRoute` only outside the retained major-parameter position. -/
def abstractSeg (s : List Char) : List Char :=
  if isNumSeg s then ['#'] else s

/-- Modelled from the spec: the top-level resources whose ID is a major
parameter.  §4.1 abstracts numeric resource IDs only "where the upstream
API's bucketing rules require it": the upstream API keys its buckets on the
channel, guild and webhook IDs, so those IDs are retained in the bucket
identity (the dependency route classifier keeps them in the parsed
`Path`, e.g. `ChannelsIdMessages(u64)`). -/
def isMajorRoot (s : List Char) : Bool :=
  s == "channels".toList || s == "guilds".toList || s == "webhooks".toList

/-- The `'/'`-separated segments of a path, with the leading empty field
dropped when the path starts with `'/'` (as the dependency classifier does
before matching the route). -/
def routeSegs (p : List Char) : List (List Char) :=
  let parts := splitOnChar '/' p
  match p with
  | c :: _ => if c = '/' then parts.drop 1 else parts
  | [] => parts

/-- Modelled from the spec: route classification (§4.1).  A path classifies
only when it has a first segment that is a resource name (non-empty,
non-numeric) — classification fails explicitly otherwise, as §4.1 requires
for paths outside any known route pattern.  For the major resources the ID
segment that follows is retained; every other numeric segment is
abstracted. -/
def abstractRoute : List (List Char) → Option (List (List Char))
  | [] => none
  | root :: rest =>
    if root.isEmpty || isNumSeg root then none
    else if isMajorRoot root then
      match rest with
      | id :: rest2 => some (root :: id :: rest2.map abstractSeg)
      | [] => some [root]
    else some (root :: rest.map abstractSeg)

/-- Modelled from the spec: the route pattern a request classifies into —
the method together with the abstracted segments of the normalized path
(`twilight_http_ratelimiting::Path` is dependency code, not under src/). -/
structure RoutePath where
  method : HMethod
  segs : List (List Char)
deriving DecidableEq, Repr

/-- Modelled from the spec: `Path::try_from((method, trimmed_path))`
(handler.rs line 68).  `none` models the classification failure that the
handler surfaces as `bail!("failed o parse")`. -/
def pathTryFrom (m : HMethod) (p : String) : Option RoutePath :=
  (abstractRoute (routeSegs p.toList)).map (fun segs => ⟨m, segs⟩)

/-- The name of a method, used to render the method into the bucket key. -/
def methodName : HMethod → String
  | .delete => "DELETE"
  | .get => "GET"
  | .patch => "PATCH"
  | .post => "POST"
  | .put => "PUT"
  | .other => "OTHER"

/-- Modelled from the spec: the Bucket Key — an opaque deterministic
rendering of the classified route (the code hashes the `Path` value with
`DefaultHasher` and stringifies the 64-bit result). -/
def bucketKeyStr (rp : RoutePath) : String :=
  methodName rp.method ++ String.join (rp.segs.map (fun s => "/" ++ String.mk s))

/-- Two segment lists differ only in the concrete values of numeric
(minor) resource-ID segments. -/
def idVariantB : List (List Char) → List (List Char) → Bool
  | [], [] => true
  | a :: xs, b :: ys => (a == b || (isNumSeg a && isNumSeg b)) && idVariantB xs ys
  | _, _ => false

/-- Two paths differ only in the concrete values of numeric ID segments in
minor position: same route segments except that numeric segments outside a
retained major-parameter position may differ. -/
def minorVariantB (p q : List Char) : Bool :=
  match routeSegs p, routeSegs q with
  | [], [] => true
  | ra :: resta, rb :: restb =>
    ra == rb &&
      (if isMajorRoot ra then
        match resta, restb with
        | [], [] => true
        | ida :: xs, idb :: ys => ida == idb && idVariantB xs ys
        | _, _ => false
      else idVariantB resta restb)
  | _, _ => false

/-! ## The request proxy orchestrator (handler.rs `handle_request`) -/

/-- An inbound request: method, URI path and query, headers, opaque body. -/
structure HttpRequest where
  method : HMethod
  path : String
  query : Option String
  headers : Headers
  body : Bytes
deriving DecidableEq, Repr

/-- The rewritten request handed to `client.request` (handler.rs line 125). -/
structure OutRequest where
  method : HMethod
  uri : String
  headers : Headers
  body : Bytes
deriving DecidableEq, Repr

/-- An upstream response: headers as raw byte values, opaque body. -/
structure UpResponse where
  headers : RespHeaders
  body : Bytes
deriving DecidableEq, Repr

/-- The oracles a single `handle_request` run interacts with: the outcome of
the one `ticket` RPC it performs, the upstream HTTP exchange, `Uri::from_str`
success, the `header_sender.send` outcome, and the two elapsed durations in
whole milliseconds (`Duration::as_millis`). -/
structure Env where
  ticketResult : Except String Unit
  upstream : OutRequest → Except String UpResponse
  uriOk : String → Bool
  sendOk : Bool
  ticketMs : Nat
  upstreamMs : Nat

/-- Observable outcome of one `handle_request` run: the returned value
(`none` models a panic), the upstream request issued (if any), and whether a
header-report failure was logged. -/
structure Outcome where
  result : Option (Except String UpResponse)
  sent : Option OutRequest
  sendFailureLogged : Bool

/-- The upstream URL (handler.rs lines 61-65):
`https://discord.com{api_path}{trimmed_path}` plus the original query. -/
def buildUri (req : HttpRequest) : String :=
  "https://discord.com" ++ String.mk (normalize_path req.path.toList).1 ++
    String.mk (normalize_path req.path.toList).2 ++
    (match req.query with
     | some q => "?" ++ q
     | none => "")

/-- The outbound request: original method and body, rewritten headers, the
rebuilt URI. -/
def outboundRequest (token : String) (req : HttpRequest) : OutRequest :=
  ⟨req.method, buildUri req, rewriteHeaders token req.headers, req.body⟩

/-- Response augmentation (handler.rs lines 134-141): append the two
diagnostic headers with decimal-millisecond values. -/
def augmentHeaders (env : Env) (resp : UpResponse) : UpResponse :=
  ⟨resp.headers ++
    [("x-ticketrequest-ms", strBytes (Nat.repr env.ticketMs)),
     ("x-upstream-ms", strBytes (Nat.repr env.upstreamMs))],
   resp.body⟩

/-- Header extraction (handler.rs lines 143-147): every response header value
converted with `to_str().unwrap()`; the first non-convertible value panics
(`none`). -/
def extractHeaders : RespHeaders → Option Headers
  | [] => some []
  | (k, v) :: rest =>
    match to_str v with
    | none => none
    | some s =>
      match extractHeaders rest with
      | none => none
      | some r => some ((k, s) :: r)

/-- `handle_request` (handler.rs lines 39-154) as one sequential run:
1. match the method (unsupported methods bail);
2. normalize the path and classify it into a route (failures bail) — the
   bucket key of the classified route is what the `ticket` call carries;
3. call `ticket`; an error bails with "failed to reteive ticket";
4. rewrite headers: `HeaderValue::from_bytes(token).expect(..)` panics on an
   invalid token byte, `HeaderValue::from_str("Bot <token>")?` propagates;
5. parse the rebuilt URI (failure bails);
6. issue the upstream request (failure bails);
7. append the two diagnostic headers;
8. extract all response headers (`to_str().unwrap()` panics on a
   non-visible-ASCII value), send them to the rate limiter, logging (not
   propagating) a send failure;
9. return the augmented response. -/
def handle_request (env : Env) (token : String) (req : HttpRequest) : Outcome :=
  match rustMethod req.method with
  | none => ⟨some (.error "unsupported method"), none, false⟩
  | some m =>
    match pathTryFrom m (String.mk (normalize_path req.path.toList).2) with
    | none => ⟨some (.error "failed o parse"), none, false⟩
    | some _rp =>
      match env.ticketResult with
      | .error _ => ⟨some (.error "failed to reteive ticket"), none, false⟩
      | .ok _ =>
        if token.toList.all headerValueOkChar then
          if ("Bot " ++ token).toList.all headerValueOkChar then
            if env.uriOk (buildUri req) then
              match env.upstream (outboundRequest token req) with
              | .error _ =>
                ⟨some (.error "failed to request the discord api"),
                 some (outboundRequest token req), false⟩
              | .ok resp =>
                match extractHeaders (augmentHeaders env resp).headers with
                | none => ⟨none, some (outboundRequest token req), false⟩
                | some _ =>
                  ⟨some (.ok (augmentHeaders env resp)),
                   some (outboundRequest token req), !env.sendOk⟩
            else ⟨some (.error "failed to create uri"), none, false⟩
          else ⟨some (.error "invalid header value"), none, false⟩
        else ⟨none, none, false⟩

/-! ## Header-map lemmas -/

theorem selKey_append (k : String) (xs ys : Headers) :
    selKey k (xs ++ ys) = selKey k xs ++ selKey k ys := by
  simp [selKey, List.filter_append]

theorem selKey_removeH_self (k : String) (hs : Headers) :
    selKey k (removeH k hs) = [] := by
  unfold selKey removeH
  rw [List.filter_filter]
  have h : ∀ a ∈ hs, (decide (a.1 = k) && decide (a.1 ≠ k)) = false := by
    intro a _
    by_cases h : a.1 = k <;> simp [h]
  calc hs.filter (fun a => decide (a.1 = k) && decide (a.1 ≠ k))
      = hs.filter (fun _ => false) := List.filter_congr h
    _ = [] := List.filter_false hs

theorem selKey_removeH_ne {k k' : String} (hne : k ≠ k') (hs : Headers) :
    selKey k (removeH k' hs) = selKey k hs := by
  unfold selKey removeH
  rw [List.filter_filter]
  apply List.filter_congr
  intro a _
  by_cases h : a.1 = k
  · have hk' : ¬a.1 = k' := by rw [h]; exact hne
    simp [h, hk', hne]
  · simp [h]

theorem selKey_single_self (k v : String) : selKey k [(k, v)] = [(k, v)] := by
  simp [selKey]

theorem selKey_single_ne {k k' : String} (hne : k ≠ k') (v : String) :
    selKey k [(k', v)] = [] := by
  simp [selKey]
  intro h
  exact hne h.symm

theorem selKey_insertH_self (k v : String) (hs : Headers) :
    selKey k (insertH k v hs) = [(k, v)] := by
  unfold insertH
  rw [selKey_append, selKey_removeH_self, selKey_single_self]
  rfl

theorem selKey_insertH_ne {k k' : String} (hne : k ≠ k') (v : String) (hs : Headers) :
    selKey k (insertH k' v hs) = selKey k hs := by
  unfold insertH
  rw [selKey_append, selKey_removeH_ne hne, selKey_single_ne hne]
  simp

/-- After the rewrite, exactly one `authorization` header remains: the
proxy Bot credential. -/
theorem selKey_rewrite_auth (token : String) (hs : Headers) :
    selKey "authorization" (rewriteHeaders token hs) =
      [("authorization", "Bot " ++ token)] := by
  unfold rewriteHeaders appendH
  rw [selKey_append, selKey_removeH_self, selKey_single_self]
  rfl

/-- After the rewrite, exactly one `host` header remains: the upstream
origin. -/
theorem selKey_rewrite_host (token : String) (hs : Headers) :
    selKey "host" (rewriteHeaders token hs) = [("host", "discord.com")] := by
  unfold rewriteHeaders appendH
  rw [selKey_append, selKey_single_ne (by decide),
    selKey_removeH_ne (by decide), selKey_removeH_ne (by decide),
    selKey_removeH_ne (by decide), selKey_removeH_ne (by decide),
    selKey_removeH_ne (by decide), selKey_removeH_ne (by decide),
    selKey_insertH_self]
  simp

/-- After the rewrite, no `connection` header remains. -/
theorem selKey_rewrite_connection (token : String) (hs : Headers) :
    selKey "connection" (rewriteHeaders token hs) = [] := by
  unfold rewriteHeaders appendH
  rw [selKey_append, selKey_single_ne (by decide),
    selKey_removeH_ne (by decide), selKey_removeH_ne (by decide),
    selKey_removeH_ne (by decide), selKey_removeH_ne (by decide),
    selKey_removeH_ne (by decide), selKey_removeH_self]
  rfl

/-- After the rewrite, no `transfer-encoding` header remains. -/
theorem selKey_rewrite_te (token : String) (hs : Headers) :
    selKey "transfer-encoding" (rewriteHeaders token hs) = [] := by
  unfold rewriteHeaders appendH
  rw [selKey_append, selKey_single_ne (by decide),
    selKey_removeH_ne (by decide), selKey_removeH_ne (by decide),
    selKey_removeH_self]
  rfl

/-- After the rewrite, no `upgrade` header remains. -/
theorem selKey_rewrite_upgrade (token : String) (hs : Headers) :
    selKey "upgrade" (rewriteHeaders token hs) = [] := by
  unfold rewriteHeaders appendH
  rw [selKey_append, selKey_single_ne (by decide),
    selKey_removeH_ne (by decide), selKey_removeH_self]
  rfl

theorem mem_removeH {k v k' : String} {hs : Headers}
    (h : (k, v) ∈ hs) (hne : k ≠ k') : (k, v) ∈ removeH k' hs :=
  List.mem_filter.mpr ⟨h, by simp [hne]⟩

theorem mem_insertH_ne {k v k' v' : String} {hs : Headers}
    (h : (k, v) ∈ hs) (hne : k ≠ k') : (k, v) ∈ insertH k' v' hs :=
  List.mem_append_left _ (mem_removeH h hne)

theorem mem_appendH {k v k' v' : String} {hs : Headers}
    (h : (k, v) ∈ hs) : (k, v) ∈ appendH k' v' hs :=
  List.mem_append_left _ h

/-- Headers outside the rewritten set pass through the rewrite unchanged. -/
theorem mem_rewriteHeaders {k v token : String} {hs : Headers}
    (hmem : (k, v) ∈ hs)
    (h1 : k ≠ "authorization") (h2 : k ≠ "connection") (h3 : k ≠ "keep-alive")
    (h4 : k ≠ "proxy-connection") (h5 : k ≠ "host")
    (h6 : k ≠ "transfer-encoding") (h7 : k ≠ "upgrade") :
    (k, v) ∈ rewriteHeaders token hs :=
  mem_appendH
    (mem_removeH
      (mem_removeH
        (mem_removeH
          (mem_removeH
            (mem_removeH
              (mem_removeH
                (mem_insertH_ne (mem_insertH_ne hmem h1) h5) h2) h3) h4) h6) h7) h1)

/-! ## Extraction and UTF-8 lemmas -/

theorem extractHeaders_cons (k : String) (v : Bytes) (rest : RespHeaders) :
    extractHeaders ((k, v) :: rest) =
      match to_str v with
      | none => none
      | some s =>
        match extractHeaders rest with
        | none => none
        | some r => some ((k, s) :: r) := rfl

theorem to_str_visible {v : Bytes} {s : String} (h : to_str v = some s) :
    v.all visibleAsciiByte = true := by
  by_cases hv : v.all visibleAsciiByte
  · exact hv
  · simp [to_str, hv] at h

theorem to_str_none {v : Bytes} (h : ¬v.all visibleAsciiByte = true) :
    to_str v = none := by
  simp [to_str, h]

theorem extractHeaders_visible :
    ∀ {hs : RespHeaders} {l : Headers}, extractHeaders hs = some l →
      ∀ kv ∈ hs, kv.2.all visibleAsciiByte = true := by
  intro hs
  induction hs with
  | nil =>
    intro l _ kv hkv
    simp at hkv
  | cons p rest ih =>
    intro l h kv hkv
    obtain ⟨k0, v0⟩ := p
    cases hts : to_str v0 with
    | none =>
      simp only [extractHeaders, hts] at h
      cases h
    | some s =>
      cases her : extractHeaders rest with
      | none =>
        simp only [extractHeaders, hts, her] at h
        cases h
      | some r =>
        rcases List.mem_cons.mp hkv with rfl | hmem
        · exact to_str_visible hts
        · exact ih her kv hmem

theorem extractHeaders_none_of_mem {hs : RespHeaders} {kv : String × Bytes}
    (hmem : kv ∈ hs) (hbad : to_str kv.2 = none) : extractHeaders hs = none := by
  induction hs with
  | nil => cases hmem
  | cons p rest ih =>
    obtain ⟨k0, v0⟩ := p
    rcases List.mem_cons.mp hmem with rfl | hmem2
    · simp only [extractHeaders]
      rw [hbad]
    · cases hts : to_str v0 with
      | none => rw [extractHeaders_cons, hts]
      | some s => rw [extractHeaders_cons, hts, ih hmem2]

theorem utf8Dec_ascii {b : Nat} (rest : Bytes) (hb : b < 128) :
    utf8Dec (b :: rest) = some rest := by
  simp only [utf8Dec]
  rw [if_pos hb]

theorem utf8ValidAux_of_lt_128 :
    ∀ {bs : Bytes}, (∀ b ∈ bs, b < 128) → utf8ValidAux bs.length bs = true := by
  intro bs
  induction bs with
  | nil => intro _; rfl
  | cons b rest ih =>
    intro h
    have hb : b < 128 := h b (List.mem_cons_self b rest)
    simp only [List.length_cons, utf8ValidAux, utf8Dec_ascii rest hb]
    exact ih (fun x hx => h x (List.mem_cons_of_mem b hx))

theorem utf8Valid_of_lt_128 {bs : Bytes} (h : ∀ b ∈ bs, b < 128) :
    utf8Valid bs = true := utf8ValidAux_of_lt_128 h

theorem visibleAsciiByte_lt_128 {b : Nat} (h : visibleAsciiByte b = true) :
    b < 128 := by
  unfold visibleAsciiByte at h
  simp at h
  rcases h with ⟨_, h2⟩ | rfl
  · omega
  · omega

theorem utf8Valid_of_visible {bs : Bytes} (h : bs.all visibleAsciiByte = true) :
    utf8Valid bs = true :=
  utf8Valid_of_lt_128 fun b hb =>
    visibleAsciiByte_lt_128 (List.all_eq_true.mp h b hb)

theorem not_visible_of_not_utf8 {bs : Bytes} (h : utf8Valid bs = false) :
    ¬bs.all visibleAsciiByte = true := by
  intro hv
  rw [utf8Valid_of_visible hv] at h
  cases h

/-! ## Bucket-key abstraction lemma -/

theorem idVariantB_map_abstract :
    ∀ {xs ys : List (List Char)}, idVariantB xs ys = true →
      xs.map abstractSeg = ys.map abstractSeg := by
  intro xs
  induction xs with
  | nil =>
    intro ys h
    cases ys with
    | nil => rfl
    | cons b bs => simp [idVariantB] at h
  | cons a xs ih =>
    intro ys h
    cases ys with
    | nil => simp [idVariantB] at h
    | cons b ys =>
      simp only [idVariantB, Bool.and_eq_true, Bool.or_eq_true, beq_iff_eq] at h
      obtain ⟨h1, h2⟩ := h
      simp only [List.map_cons, ih h2]
      rcases h1 with rfl | ⟨ha, hb⟩
      · rfl
      · simp [abstractSeg, ha, hb]

/-! ## `handle_request` helper lemmas -/

/-- Whenever an upstream request is issued, it is the rewritten outbound
request. -/
theorem sent_eq_outbound {env : Env} {token : String} {req : HttpRequest}
    {o : OutRequest} (h : (handle_request env token req).sent = some o) :
    o = outboundRequest token req := by
  unfold handle_request at h
  cases hm : rustMethod req.method with
  | none => simp only [hm] at h; cases h
  | some m =>
    simp only [hm] at h
    cases hp : pathTryFrom m (String.mk (normalize_path req.path.toList).2) with
    | none => simp only [hp] at h; cases h
    | some rp =>
      simp only [hp] at h
      cases ht : env.ticketResult with
      | error e => simp only [ht] at h; cases h
      | ok u =>
        simp only [ht] at h
        by_cases h1 : token.toList.all headerValueOkChar = true
        · rw [if_pos h1] at h
          by_cases h2 : ("Bot " ++ token).toList.all headerValueOkChar = true
          · rw [if_pos h2] at h
            by_cases h3 : env.uriOk (buildUri req) = true
            · rw [if_pos h3] at h
              cases hu : env.upstream (outboundRequest token req) with
              | error e =>
                simp only [hu] at h
                exact (Option.some.inj h).symm
              | ok resp =>
                simp only [hu] at h
                cases he : extractHeaders (augmentHeaders env resp).headers with
                | none =>
                  simp only [he] at h
                  exact (Option.some.inj h).symm
                | some l =>
                  simp only [he] at h
                  exact (Option.some.inj h).symm
            · rw [if_neg h3] at h; cases h
          · rw [if_neg h2] at h; cases h
        · rw [if_neg h1] at h; cases h

/-- A successful result is the augmented response of a successful upstream
exchange whose headers all extracted. -/
theorem result_ok_shape {env : Env} {token : String} {req : HttpRequest}
    {r : UpResponse}
    (h : (handle_request env token req).result = some (.ok r)) :
    ∃ resp, env.upstream (outboundRequest token req) = .ok resp ∧
      r = augmentHeaders env resp ∧
      ∃ l, extractHeaders (augmentHeaders env resp).headers = some l := by
  unfold handle_request at h
  cases hm : rustMethod req.method with
  | none => simp only [hm] at h; cases h
  | some m =>
    simp only [hm] at h
    cases hp : pathTryFrom m (String.mk (normalize_path req.path.toList).2) with
    | none => simp only [hp] at h; cases h
    | some rp =>
      simp only [hp] at h
      cases ht : env.ticketResult with
      | error e => simp only [ht] at h; cases h
      | ok u =>
        simp only [ht] at h
        by_cases h1 : token.toList.all headerValueOkChar = true
        · rw [if_pos h1] at h
          by_cases h2 : ("Bot " ++ token).toList.all headerValueOkChar = true
          · rw [if_pos h2] at h
            by_cases h3 : env.uriOk (buildUri req) = true
            · rw [if_pos h3] at h
              cases hu : env.upstream (outboundRequest token req) with
              | error e =>
                simp only [hu] at h
                cases h
              | ok resp =>
                simp only [hu] at h
                cases he : extractHeaders (augmentHeaders env resp).headers with
                | none =>
                  simp only [he] at h
                  cases h
                | some l =>
                  simp only [he] at h
                  exact ⟨resp, rfl, ((Except.ok.inj (Option.some.inj h))).symm, l, he⟩
            · rw [if_neg h3] at h; cases h
          · rw [if_neg h2] at h; cases h
        · rw [if_neg h1] at h; cases h

/-- When the upstream exchange succeeded but a response header value fails
extraction, the run panics (`result = none`). -/
theorem result_none_of_extract_none {env : Env} {token : String}
    {req : HttpRequest} {resp : UpResponse}
    (hsent : (handle_request env token req).sent = some (outboundRequest token req))
    (hup : env.upstream (outboundRequest token req) = .ok resp)
    (hnone : extractHeaders (augmentHeaders env resp).headers = none) :
    (handle_request env token req).result = none := by
  unfold handle_request at hsent ⊢
  cases hm : rustMethod req.method with
  | none => simp only [hm] at hsent; cases hsent
  | some m =>
    simp only [hm] at hsent
    cases hp : pathTryFrom m (String.mk (normalize_path req.path.toList).2) with
    | none => simp only [hp] at hsent; cases hsent
    | some rp =>
      simp only [hp] at hsent ⊢
      cases ht : env.ticketResult with
      | error e => simp only [ht] at hsent; cases hsent
      | ok u =>
        simp only [ht] at hsent ⊢
        by_cases h1 : token.toList.all headerValueOkChar = true
        · rw [if_pos h1] at hsent ⊢
          by_cases h2 : ("Bot " ++ token).toList.all headerValueOkChar = true
          · rw [if_pos h2] at hsent ⊢
            by_cases h3 : env.uriOk (buildUri req) = true
            · rw [if_pos h3]
              simp only [hup, hnone]
            · rw [if_neg h3] at hsent; cases hsent
          · rw [if_neg h2] at hsent; cases hsent
        · rw [if_neg h1] at hsent; cases hsent

/-! ## Claim theorems about `handle_request` -/

/-- C1: the forwarded call happens only after `ticket` has returned
successfully, and a `ticket` error makes `handle_request` return an error
with no upstream request ever issued. -/
theorem handle_request_ticket_gate (env : Env) (token : String)
    (req : HttpRequest) :
    ((handle_request env token req).sent.isSome = true →
      env.ticketResult = .ok ()) ∧
    (∀ e, env.ticketResult = .error e →
      (handle_request env token req).sent = none ∧
      ∃ msg, (handle_request env token req).result = some (.error msg)) := by
  constructor
  · intro hs
    cases ht : env.ticketResult with
    | ok u => rfl
    | error e =>
      exfalso
      unfold handle_request at hs
      cases hm : rustMethod req.method with
      | none => simp only [hm] at hs; cases hs
      | some m =>
        simp only [hm] at hs
        cases hp : pathTryFrom m (String.mk (normalize_path req.path.toList).2) with
        | none => simp only [hp] at hs; cases hs
        | some rp =>
          simp only [hp, ht] at hs
          cases hs
  · intro e ht
    unfold handle_request
    cases hm : rustMethod req.method with
    | none => exact ⟨rfl, "unsupported method", rfl⟩
    | some m =>
      cases hp : pathTryFrom m (String.mk (normalize_path req.path.data).2) with
      | none => exact ⟨by simp [hp], "failed o parse", by simp [hp]⟩
      | some rp =>
        exact ⟨by simp [hp, ht], "failed to reteive ticket", by simp [hp, ht]⟩

/-- C4: any request that reaches the forwarding step carries exactly one
`authorization` header (the proxy Bot credential), `host` set to the
upstream origin, and no `connection`, `transfer-encoding` or `upgrade`
header — the caller values for all five names are gone. -/
theorem handle_request_header_rewrite (env : Env) (token : String)
    (req : HttpRequest) (o : OutRequest)
    (h : (handle_request env token req).sent = some o) :
    selKey "authorization" o.headers = [("authorization", "Bot " ++ token)] ∧
    selKey "host" o.headers = [("host", "discord.com")] ∧
    selKey "connection" o.headers = [] ∧
    selKey "transfer-encoding" o.headers = [] ∧
    selKey "upgrade" o.headers = [] := by
  obtain rfl := sent_eq_outbound h
  exact ⟨selKey_rewrite_auth token req.headers,
    selKey_rewrite_host token req.headers,
    selKey_rewrite_connection token req.headers,
    selKey_rewrite_te token req.headers,
    selKey_rewrite_upgrade token req.headers⟩

/-- C5: the outcome of the header-report send never changes the returned
result or the upstream request: `handle_request` is insensitive to the
`sendOk` oracle (a failure is only logged). -/
theorem handle_request_report_best_effort (env : Env) (b₁ b₂ : Bool)
    (token : String) (req : HttpRequest) :
    (handle_request { env with sendOk := b₁ } token req).result =
      (handle_request { env with sendOk := b₂ } token req).result ∧
    (handle_request { env with sendOk := b₁ } token req).sent =
      (handle_request { env with sendOk := b₂ } token req).sent := by
  obtain ⟨tr, up, uo, so, tm, um⟩ := env
  unfold handle_request augmentHeaders
  dsimp only
  cases hm : rustMethod req.method with
  | none => exact ⟨rfl, rfl⟩
  | some m =>
    simp only [String.toList]
    cases hp : pathTryFrom m (String.mk (normalize_path req.path.data).2) with
    | none => exact ⟨by simp [hp], by simp [hp]⟩
    | some rp =>
      simp only [hp]
      cases tr with
      | error e => exact ⟨rfl, rfl⟩
      | ok u =>
        by_cases h1 : token.data.all headerValueOkChar = true
        · rw [if_pos h1, if_pos h1]
          by_cases h2 : ("Bot " ++ token).data.all headerValueOkChar = true
          · rw [if_pos h2, if_pos h2]
            by_cases h3 : uo (buildUri req) = true
            · rw [if_pos h3, if_pos h3]
              cases hu : up (outboundRequest token req) with
              | error e => exact ⟨rfl, rfl⟩
              | ok resp =>
                dsimp only
                cases he : extractHeaders
                    (resp.headers ++
                      [("x-ticketrequest-ms", strBytes (Nat.repr tm)),
                       ("x-upstream-ms", strBytes (Nat.repr um))]) with
                | none => exact ⟨rfl, rfl⟩
                | some l => exact ⟨rfl, rfl⟩
            · rw [if_neg h3, if_neg h3]
              exact ⟨rfl, rfl⟩
          · rw [if_neg h2, if_neg h2]
            exact ⟨rfl, rfl⟩
        · rw [if_neg h1, if_neg h1]
          exact ⟨rfl, rfl⟩

/-- C7 (amended): every inbound header whose name is outside the rewritten
set (`authorization`, `connection`, `keep-alive`, `proxy-connection`,
`host`, `transfer-encoding`, `upgrade`) appears unchanged in the outbound
request, and the body is passed through unmodified. -/
theorem handle_request_frame (env : Env) (token : String) (req : HttpRequest)
    (o : OutRequest) (h : (handle_request env token req).sent = some o) :
    (∀ k v, (k, v) ∈ req.headers →
      k ∉ (["authorization", "connection", "keep-alive", "proxy-connection",
        "host", "transfer-encoding", "upgrade"] : List String) →
      (k, v) ∈ o.headers) ∧
    o.body = req.body := by
  obtain rfl := sent_eq_outbound h
  refine ⟨?_, rfl⟩
  intro k v hmem hk
  simp only [List.mem_cons, List.not_mem_nil, or_false, not_or] at hk
  obtain ⟨h1, h2, h3, h4, h5, h6, h7⟩ := hk
  exact mem_rewriteHeaders hmem h1 h2 h3 h4 h5 h6 h7

/-- C8: every successfully returned response carries the two diagnostic
headers, whose values are the decimal numerals of the measured whole
milliseconds (non-negative by construction). -/
theorem handle_request_diagnostic_headers (env : Env) (token : String)
    (req : HttpRequest) (r : UpResponse)
    (h : (handle_request env token req).result = some (.ok r)) :
    ("x-ticketrequest-ms", strBytes (Nat.repr env.ticketMs)) ∈ r.headers ∧
    ("x-upstream-ms", strBytes (Nat.repr env.upstreamMs)) ∈ r.headers := by
  obtain ⟨resp, _, rfl, _⟩ := result_ok_shape h
  constructor
  · simp [augmentHeaders]
  · simp [augmentHeaders]

/-- C10: a response is returned (rather than a panic) only when every header
value of the response is valid UTF-8; an upstream response containing a
non-UTF-8 header value makes the run panic after the upstream exchange. -/
theorem handle_request_header_utf8 (env : Env) (token : String)
    (req : HttpRequest) :
    (∀ r, (handle_request env token req).result = some (.ok r) →
      ∀ kv ∈ r.headers, utf8Valid kv.2 = true) ∧
    (∀ o resp, (handle_request env token req).sent = some o →
      env.upstream o = .ok resp →
      (∃ kv ∈ resp.headers, utf8Valid kv.2 = false) →
      (handle_request env token req).result = none) := by
  constructor
  · intro r h kv hkv
    obtain ⟨resp, _, rfl, l, hl⟩ := result_ok_shape h
    exact utf8Valid_of_visible (extractHeaders_visible hl kv hkv)
  · intro o resp hsent hup hbad
    obtain rfl := sent_eq_outbound hsent
    obtain ⟨kv, hkvmem, hkvbad⟩ := hbad
    have hts : to_str kv.2 = none := by
      apply to_str_none
      intro hv
      rw [utf8Valid_of_visible hv] at hkvbad
      cases hkvbad
    have hmem2 : kv ∈ (augmentHeaders env resp).headers := by
      simp only [augmentHeaders]
      exact List.mem_append_left _ hkvmem
    exact result_none_of_extract_none hsent hup
      (extractHeaders_none_of_mem hmem2 hts)

/-- C9 counterexample: channel IDs are major parameters that the bucketing
rules retain, so `/channels/1/messages` and `/channels/2/messages` — the very
pair the claim gives as its example — both classify, but to distinct bucket
keys. -/
theorem bucket_key_major_counterexample :
    ((pathTryFrom HMethod.get "/channels/1/messages").map bucketKeyStr).isSome
        = true ∧
    ((pathTryFrom HMethod.get "/channels/2/messages").map bucketKeyStr).isSome
        = true ∧
    (pathTryFrom HMethod.get "/channels/1/messages").map bucketKeyStr ≠
      (pathTryFrom HMethod.get "/channels/2/messages").map bucketKeyStr := by
  decide

/-- C9 (amended): for any two same-method requests whose normalized paths
differ only in the concrete values of numeric ID segments in minor position
(outside the retained major channel/guild/webhook ID), the derived bucket
key is identical; and repeated derivation always yields the same key. -/
theorem bucket_key_minor_abstraction (m : HMethod) (p q : String)
    (h : minorVariantB p.toList q.toList = true) :
    (pathTryFrom m p).map bucketKeyStr = (pathTryFrom m q).map bucketKeyStr ∧
    (pathTryFrom m p).map bucketKeyStr = (pathTryFrom m p).map bucketKeyStr := by
  refine ⟨?_, rfl⟩
  unfold pathTryFrom
  unfold minorVariantB at h
  cases hsp : routeSegs p.toList with
  | nil =>
    cases hsq : routeSegs q.toList with
    | nil => rfl
    | cons rb restb => simp only [hsp, hsq] at h; cases h
  | cons ra resta =>
    cases hsq : routeSegs q.toList with
    | nil => simp only [hsp, hsq] at h; cases h
    | cons rb restb =>
      simp only [hsp, hsq, Bool.and_eq_true, beq_iff_eq] at h
      obtain ⟨rfl, h2⟩ := h
      simp only [abstractRoute]
      by_cases h0 : (ra.isEmpty || isNumSeg ra) = true
      · rw [if_pos h0, if_pos h0]
      · rw [if_neg h0, if_neg h0]
        by_cases hmaj : isMajorRoot ra = true
        · rw [if_pos hmaj, if_pos hmaj]
          rw [if_pos hmaj] at h2
          cases resta with
          | nil =>
            cases restb with
            | nil => rfl
            | cons idb ys => simp at h2
          | cons ida xs =>
            cases restb with
            | nil => simp at h2
            | cons idb ys =>
              simp only [Bool.and_eq_true, beq_iff_eq] at h2
              obtain ⟨rfl, hxy⟩ := h2
              dsimp only
              rw [idVariantB_map_abstract hxy]
        · rw [if_neg hmaj, if_neg hmaj]
          rw [if_neg hmaj] at h2
          rw [idVariantB_map_abstract h2]

/-! ## Concrete runs used by the witnesses -/

/-- A concrete bot token. -/
def tokC : String := "tok"

/-- A concrete inbound request exercising a pass-through header, a
hop-by-hop header the code strips, and a caller credential. -/
def reqC : HttpRequest :=
  ⟨.get, "/api/v10/users/@me", none,
   [("x-custom", "1"), ("keep-alive", "300"), ("authorization", "secret")],
   [1, 2]⟩

/-- A concrete upstream response with one visible-ASCII header value. -/
def upRespC : UpResponse := ⟨[("x-ratelimit-limit", strBytes "5")], []⟩

/-- Oracles for a fully successful run. -/
def envC : Env := ⟨.ok (), fun _ => .ok upRespC, fun _ => true, true, 3, 7⟩

/-- The oracles of the successful run, with a failing `ticket`. -/
def envTF : Env := { envC with ticketResult := .error "boom" }

/-- An upstream response carrying a non-UTF-8 header value (byte 255). -/
def upRespBad : UpResponse := ⟨[("x-bad", [255])], []⟩

/-- The oracles of the successful run, with the non-UTF-8 upstream response. -/
def envBad : Env := { envC with upstream := fun _ => .ok upRespBad }

/-- The outbound request of the successful concrete run. -/
def outC : OutRequest := outboundRequest tokC reqC

/-- The response returned by the successful concrete run. -/
def respC : UpResponse := augmentHeaders envC upRespC

theorem ticket_gate_witness :
    envC.ticketResult = .ok () ∧
    (handle_request envTF tokC reqC).sent = none ∧
    ∃ msg, (handle_request envTF tokC reqC).result = some (.error msg) :=
  ⟨(handle_request_ticket_gate envC tokC reqC).1 rfl,
   (handle_request_ticket_gate envTF tokC reqC).2 "boom" rfl⟩

theorem header_rewrite_witness :
    selKey "authorization" outC.headers = [("authorization", "Bot tok")] ∧
    selKey "host" outC.headers = [("host", "discord.com")] ∧
    selKey "connection" outC.headers = [] ∧
    selKey "transfer-encoding" outC.headers = [] ∧
    selKey "upgrade" outC.headers = [] :=
  handle_request_header_rewrite envC tokC reqC outC rfl

theorem frame_witness :
    ("x-custom", "1") ∈ outC.headers ∧ outC.body = reqC.body :=
  ⟨(handle_request_frame envC tokC reqC outC rfl).1 "x-custom" "1"
      (by decide) (by decide),
   (handle_request_frame envC tokC reqC outC rfl).2⟩

/-- C7 counterexample: the code also strips `keep-alive` (and
`proxy-connection`), so an inbound `keep-alive` header — whose name is not
among the five listed — does not appear in the outbound request. -/
theorem frame_counterexample :
    ("keep-alive", "300") ∈ reqC.headers ∧
    "keep-alive" ∉ (["authorization", "connection", "host",
      "transfer-encoding", "upgrade"] : List String) ∧
    (handle_request envC tokC reqC).sent = some outC ∧
    ("keep-alive", "300") ∉ outC.headers := by
  refine ⟨by decide, by decide, rfl, by decide⟩

theorem diagnostic_headers_witness :
    ("x-ticketrequest-ms", strBytes (Nat.repr 3)) ∈ respC.headers ∧
    ("x-upstream-ms", strBytes (Nat.repr 7)) ∈ respC.headers :=
  handle_request_diagnostic_headers envC tokC reqC respC rfl

theorem header_utf8_witness :
    utf8Valid (strBytes "5") = true ∧
    (handle_request envBad tokC reqC).result = none :=
  ⟨(handle_request_header_utf8 envC tokC reqC).1 respC rfl
      ("x-ratelimit-limit", strBytes "5") (by decide),
   (handle_request_header_utf8 envBad tokC reqC).2 (outboundRequest tokC reqC)
      upRespBad rfl rfl ⟨("x-bad", [255]), by decide, by decide⟩⟩

theorem bucket_key_minor_abstraction_witness :
    minorVariantB "/channels/1/messages/111".toList
      "/channels/1/messages/222".toList = true ∧
    (pathTryFrom HMethod.get "/channels/1/messages/111").map bucketKeyStr =
      (pathTryFrom HMethod.get "/channels/1/messages/222").map bucketKeyStr :=
  ⟨by decide,
   (bucket_key_minor_abstraction HMethod.get "/channels/1/messages/111"
      "/channels/1/messages/222" (by decide)).1⟩

end Nova
